import Mathlib

/-!
Verification development for the deposit-cost / payload-assembly core of the
`pagoda-experiments` ticketing frontend
(`src/apps/ticketing/src/utils/helpers.ts`).

The two functions under study are `calculateDepositCost` and `createPayload`.
They are embedded shallowly:

* JavaScript `BigInt` arithmetic is `Int` (arbitrary-precision, division
  truncating toward zero, division by zero throws a `RangeError` — modelled
  as an `Except` error).
* JavaScript plain objects used as string-keyed records are association
  lists `List (String × α)` in insertion order; assigning to an existing key
  overwrites in place (`recordInsert`).
* External collaborators that are not part of the analysed source
  (the crypto helpers, `Date.now`, `Date.parse`, `localStorage`,
  `getByteSize ∘ JSON.stringify`, the marketplace-contract id imported from
  `./common`) are supplied through an environment record `JsEnv`; theorems
  quantify over every environment.  `JSON.stringify` results that are only
  carried opaquely (ticket `extra`, `change_user_metadata`, `on_success.args`)
  are kept structured, since serialization is an injective boundary
  conversion.
* `parseNearAmount` (from `near-api-js/lib/utils/format`) is embedded
  concretely, following its published source: `null` on a falsy argument, a
  thrown error on a malformed decimal string, otherwise the base-unit
  integer string.
-/

set_option maxRecDepth 10000

deriving instance DecidableEq for Except

namespace Ticketing

/-- Milliseconds-from-epoch date window (source: `DateAndTimeInfo`). -/
structure DateAndTimeInfo where
  startDate : Int
  startTime : Option String
  endDate : Option Int
  endTime : Option String
  deriving DecidableEq, Repr

/-- One ticket type as entered in the organizer form
(source: `TicketInfoFormMetadata`).  The `artwork` field is a browser
`FileList`; it is never read by the analysed code, so it is modelled as an
opaque list of file names. -/
structure TicketInfoFormMetadata where
  name : String
  denomination : String
  maxSupply : Option Nat
  maxPurchases : Option Nat
  priceNear : Option String
  priceFiat : Option String
  description : Option String
  artwork : Option (List String)
  salesValidThrough : Option DateAndTimeInfo
  passValidThrough : Option DateAndTimeInfo
  deriving DecidableEq, Repr

/-- Source: `TicketMetadataExtra` (serialized into the ticket NFT `extra`
field). -/
structure TicketMetadataExtra where
  eventId : String
  dateCreated : String
  limitPerUser : Option Nat
  priceNear : Option String
  priceFiat : Option String
  maxSupply : Option Nat
  salesValidThrough : Option DateAndTimeInfo
  passValidThrough : Option DateAndTimeInfo
  deriving DecidableEq, Repr

/-- Source: `TicketInfoMetadata`.  In the source `extra` is the JSON string
of a `TicketMetadataExtra`; it is kept structured here. -/
structure TicketInfoMetadata where
  name : String
  description : Option String
  artwork : Option String
  extra : Option TicketMetadataExtra
  deriving DecidableEq, Repr

/-- Source: `FunderEventMetadata` (the active declaration, not the
commented-out reference copy). -/
structure FunderEventMetadata where
  nearCheckout : Option Bool
  name : String
  id : String
  location : String
  date : DateAndTimeInfo
  artwork : String
  dateCreated : String
  description : Option String
  sellable : Option Bool
  pubKey : Option String
  encPrivKey : Option String
  iv : Option String
  salt : Option String
  deriving DecidableEq, Repr

/-- Source: `FormSchema`.  `checkoutType` is one of the literal strings
`near`, `stripe`, `both`; `eventArtwork` is an opaque `FileList`. -/
structure FormSchema where
  name : String
  stripeAccountId : Option String
  acceptNearPayments : Bool
  acceptStripePayments : Bool
  location : String
  date : String
  tickets : List TicketInfoFormMetadata
  checkoutType : String
  description : Option String
  startTime : Option String
  endTime : Option String
  eventArtwork : Option (List String)
  deriving DecidableEq, Repr

/-- Per-drop value of the `marketTicketInfo` record passed to
`calculateDepositCost` (an anonymous record type in the source). -/
structure MarketKeyInfo where
  max_tickets : Nat
  price : String
  sale_start : Option Int
  sale_end : Option Int
  deriving DecidableEq, Repr

/-- Source constant `FIRST_DROP_BASE_COST`. -/
def FIRST_DROP_BASE_COST : Int := 15899999999999900000000

/-- Source constant `SUBSEQUENT_DROP_BASE_COST`. -/
def SUBSEQUENT_DROP_BASE_COST : Int := 14460000000000200000000

/-- Source constant `FUNDER_METADATA_BASE_COST`. -/
def FUNDER_METADATA_BASE_COST : Int := 840000000000000000000

/-- Source constant `FIRST_MARKET_DROP_BASE_COST`. -/
def FIRST_MARKET_DROP_BASE_COST : Int := 11790000000000000000000

/-- Source constant `SUBSEQUENT_MARKET_DROP_BASE_COST`. -/
def SUBSEQUENT_MARKET_DROP_BASE_COST : Int := 6810000000000000000000

/-- Source constant `YOCTO_PER_BYTE` (includes a 200% safety margin). -/
def YOCTO_PER_BYTE : Int := 15000000000000000000

/-- Source constant `BASE_MARKET_BYTES_PER_KEY`. -/
def BASE_MARKET_BYTES_PER_KEY : Int := 800

/-- Source constant `METADATA_MARKET_BYTES_PER_KEY`. -/
def METADATA_MARKET_BYTES_PER_KEY : Int := 900

/-- JavaScript record assignment `r[k] = v`: overwrites in place when the key
is present (keeping its original position), otherwise appends. -/
def recordInsert (r : List (String × α)) (k : String) (v : α) : List (String × α) :=
  if r.any (fun p => p.1 = k) then
    r.map (fun p => if p.1 = k then (k, v) else p)
  else r ++ [(k, v)]

/-- The `numFreeKeys` accumulation loop of `calculateDepositCost`: sums
`max_tickets` over the record values whose `price` is the string `"0"`. -/
def numFreeKeysLoop (values : List MarketKeyInfo) : Nat :=
  values.foldl (fun acc keyInfo => if keyInfo.price = "0" then acc + keyInfo.max_tickets else acc) 0

/-- The only runtime failure of `calculateDepositCost`: `BigInt` division by
zero (a thrown `RangeError` when `tickets` is empty). -/
inductive DepositError
  | divisionByZero
  deriving DecidableEq, Repr

/-- The cost breakdown before the `.toString()` boundary conversion: the four
`BigInt` amounts the source computes. -/
structure CostBreakdownInt where
  perDrop : Int
  perEvent : Int
  marketListing : Int
  total : Int
  deriving DecidableEq, Repr

/-- The cost breakdown as returned (decimal strings, source `costBreakdown`). -/
structure CostBreakdown where
  perDrop : String
  perEvent : String
  marketListing : String
  total : String
  deriving DecidableEq, Repr

/-- The `.toString()` conversions applied to the four `BigInt` amounts at the
return boundary of `calculateDepositCost`. -/
def CostBreakdownInt.render (c : CostBreakdownInt) : CostBreakdown :=
  { perDrop := toString c.perDrop
    perEvent := toString c.perEvent
    marketListing := toString c.marketListing
    total := toString c.total }

/-- Source `calculateDepositCost`, before the `.toString()` boundary.
`byteSizeOfTicketsJson` and `byteSizeOfEventJson` stand for the external
composite `getByteSize(JSON.stringify(·))` (the `getByteSize` helper lives in
`crypto-helpers.ts`, outside the analysed sources); every theorem quantifies
over them.  `BigInt(tickets.length - 1)` is exact `Int` subtraction, and the
final division is `BigInt` division: truncation toward zero, throwing on a
zero divisor. -/
def calculateDepositCostInt
    (byteSizeOfTicketsJson : List TicketInfoFormMetadata → Nat)
    (byteSizeOfEventJson : FunderEventMetadata → Nat)
    (eventMetadata : FunderEventMetadata)
    (tickets : List TicketInfoFormMetadata)
    (marketTicketInfo : List (String × MarketKeyInfo)) :
    Except DepositError CostBreakdownInt :=
  let marketDeposit0 : Int := FIRST_MARKET_DROP_BASE_COST
  let dropDeposit0 : Int := FIRST_DROP_BASE_COST
  let funderMetaCost0 : Int := FUNDER_METADATA_BASE_COST
  let dropDeposit1 : Int := dropDeposit0 + ((tickets.length : Int) - 1) * SUBSEQUENT_DROP_BASE_COST
  let dropDeposit : Int := dropDeposit1 + (byteSizeOfTicketsJson tickets : Int) * YOCTO_PER_BYTE
  let funderMetaCost : Int :=
    funderMetaCost0 + (byteSizeOfEventJson eventMetadata : Int) * YOCTO_PER_BYTE
  let marketDeposit1 : Int :=
    marketDeposit0 + ((marketTicketInfo.length : Int) - 1) * SUBSEQUENT_MARKET_DROP_BASE_COST
  let numFreeKeys : Nat := numFreeKeysLoop (marketTicketInfo.map Prod.snd)
  let marketDeposit : Int := marketDeposit1 +
    (numFreeKeys : Int) * (BASE_MARKET_BYTES_PER_KEY + METADATA_MARKET_BYTES_PER_KEY) *
      YOCTO_PER_BYTE * 2
  if tickets.length = 0 then
    .error .divisionByZero
  else
    .ok { perDrop := dropDeposit.tdiv (tickets.length : Int)
          perEvent := funderMetaCost
          marketListing := marketDeposit
          total := dropDeposit + funderMetaCost + marketDeposit }

/-- Source `calculateDepositCost` as exported: the `BigInt` computation
followed by the `.toString()` conversions. -/
def calculateDepositCost
    (byteSizeOfTicketsJson : List TicketInfoFormMetadata → Nat)
    (byteSizeOfEventJson : FunderEventMetadata → Nat)
    (eventMetadata : FunderEventMetadata)
    (tickets : List TicketInfoFormMetadata)
    (marketTicketInfo : List (String × MarketKeyInfo)) :
    Except DepositError CostBreakdown :=
  (calculateDepositCostInt byteSizeOfTicketsJson byteSizeOfEventJson
      eventMetadata tickets marketTicketInfo).map CostBreakdownInt.render

/-- `NEAR_NOMINATION_EXP` of `near-api-js` (24 decimal places). -/
def NEAR_NOMINATION_EXP : Nat := 24

/-- JavaScript `trim()` modelled character-wise over the ASCII whitespace
set (the exotic Unicode whitespace JavaScript also trims never occurs in
the inputs studied here). -/
def jsTrim (s : String) : String :=
  String.mk (((s.data.dropWhile Char.isWhitespace).reverse.dropWhile
    Char.isWhitespace).reverse)

/-- `cleanupAmount` of `near-api-js`: strips every comma
(`replace(/,/g, '')`) and trims whitespace. -/
def cleanupAmount (amount : String) : String :=
  jsTrim (String.mk (amount.data.filter (fun c => c ≠ ',')))

/-- `trimLeadingZeroes` of `near-api-js`. -/
def trimLeadingZeroes (value : String) : String :=
  let v := String.mk (value.data.dropWhile (fun c => c = '0'))
  if v = "" then "0" else v

/-- JavaScript `padEnd(n, '0')` on a string of digits. -/
def padZeroesEnd (n : Nat) (s : String) : String :=
  s ++ String.mk (List.replicate (n - s.length) '0')

/-- JavaScript `split('.')` modelled structurally over the character list:
the list of dot-free segments, with empty segments kept (so the result is
never empty). -/
def splitOnDotAux : List Char → List (List Char)
  | [] => [[]]
  | c :: rest =>
    let r := splitOnDotAux rest
    if c = '.' then [] :: r
    else
      match r with
      | [] => [[c]]
      | s :: ss => (c :: s) :: ss

/-- JavaScript `amt.split('.')`. -/
def splitOnDot (s : String) : List String :=
  (splitOnDotAux s.data).map String.mk

/-- `parseNearAmount` of `near-api-js/lib/utils/format` (an external library
dependency, embedded from its published source): `.ok none` models the
`null` return on a falsy argument, `.error` models the thrown
`Cannot parse ... as NEAR amount` error. -/
def parseNearAmount (amt : String) : Except String (Option String) :=
  if amt = "" then .ok none
  else
    let amt2 := cleanupAmount amt
    let split := splitOnDot amt2
    let wholePart := split.headD ""
    let fracPart := (split.drop 1).headD ""
    if 2 < split.length ∨ NEAR_NOMINATION_EXP < fracPart.length then
      .error ("Cannot parse " ++ amt2 ++ " as NEAR amount")
    else
      .ok (some (trimLeadingZeroes (wholePart ++ padZeroesEnd NEAR_NOMINATION_EXP fracPart)))

/-- The drop-id slug: `name.replaceAll(' ', '').toLocaleLowerCase()`:
removes every space character and lower-cases character-wise (ASCII,
matching the default-locale behaviour on the ASCII range). -/
def slugifyName (name : String) : String :=
  String.mk ((name.data.filter (fun c => c ≠ ' ')).map Char.toLower)

/-- JavaScript truthiness test for a nullable string: `!x` holds exactly for
`null`/`undefined` and the empty string. -/
def isFalsyStr : Option String → Bool
  | none => true
  | some s => s = ""

/-- Environment record bundling every external collaborator `createPayload`
reads: the persisted master key (`localStorageGet('MASTER_KEY')`), the
`Date.now()` value of the k-th call within one invocation, `Date.parse`, the
four opaque crypto outputs (key pair generation, salt, symmetric key
derivation, private-key encryption, public-key export), the marketplace
contract id imported from `./common`, and the byte-size measure
`getByteSize ∘ JSON.stringify` for the two serialized structures. -/
structure JsEnv where
  masterKey : Option String
  now : Nat → Nat
  dateParse : String → Int
  pubKeyB64 : String
  encPrivKeyB64 : String
  ivB64 : String
  saltB64 : String
  KEYPOM_MARKETPLACE_CONTRACT : String
  byteSizeOfTicketsJson : List TicketInfoFormMetadata → Nat
  byteSizeOfEventJson : FunderEventMetadata → Nat

/-- The externally visible side effects of one `createPayload` run, in
program order. -/
inductive Effect
  | generateKeyPair
  | getRandomValues
  | deriveKeyFromPassword
  | encryptPrivateKey
  | exportPublicKey
  | buildDrop
  | estimateDeposit
  | assembleAction
  deriving DecidableEq, Repr

/-- Failure modes of `createPayload`: the missing-master-key throw, the two
runtime failures of the price conversion (`parseNearAmount` throwing, and
`.toString()` applied to its `null` result), and the division-by-zero of the
deposit estimator on an empty ticket list. -/
inductive PayloadError
  | missingMasterKey
  | cannotParseNearThrow
  | nullPriceToString
  | divisionByZero
  deriving DecidableEq, Repr

/-- Source: the per-use asset `config: { permissions: 'claim' }`. -/
structure AssetUsageConfig where
  permissions : String
  deriving DecidableEq, Repr

/-- Source: one element of the per-drop `assetData` array. -/
structure AssetData where
  uses : Nat
  assets : List (Option Unit)
  config : AssetUsageConfig
  deriving DecidableEq, Repr

/-- Source: `nft_keys_config` of a drop config. -/
structure NftKeysConfig where
  token_metadata : TicketInfoMetadata
  deriving DecidableEq, Repr

/-- Source: one `dropConfig` pushed per ticket type. -/
structure DropConfig where
  nft_keys_config : NftKeysConfig
  add_key_allowlist : List String
  transfer_key_allowlist : List String
  deriving DecidableEq, Repr

/-- Source: the JSON payload of the `create_event` on-success callback
(kept structured; the source serializes it with `JSON.stringify`). -/
structure CreateEventArgs where
  event_id : String
  funder_id : String
  ticket_information : List (String × MarketKeyInfo)
  stripe_status : Bool
  stripe_account_id : Option String
  deriving DecidableEq, Repr

/-- Source: the `on_success` record of the batch-create call. -/
structure OnSuccess where
  receiver_id : String
  method_name : String
  args : CreateEventArgs
  attached_deposit : String
  deriving DecidableEq, Repr

/-- Source: the `args` of the `create_drop_batch` function call.
`change_user_metadata` is the serialized funder metadata record (kept
structured). -/
structure CreateDropBatchArgs where
  drop_ids : List String
  drop_configs : List DropConfig
  asset_datas : List (List AssetData)
  change_user_metadata : List (String × FunderEventMetadata)
  on_success : OnSuccess
  deriving DecidableEq, Repr

/-- Source: the `params` of the wallet-selector `FunctionCall` action. -/
structure FunctionCallParams where
  methodName : String
  args : CreateDropBatchArgs
  gas : String
  deposit : String
  deriving DecidableEq, Repr

/-- A wallet-selector action; the analysed code only builds the
`FunctionCall` variant, carried in the `type` field. -/
structure WalletAction where
  type : String
  params : FunctionCallParams
  deriving DecidableEq, Repr

/-- The value resolved by `createPayload`: `{ actions, dropIds }`, together
with the final state of the caller-owned `ticketArtworkCids` array (the
source consumes it destructively with `shift()`). -/
structure PayloadResult where
  actions : List WalletAction
  dropIds : List String
  remainingTicketArtworkCids : List String
  deriving DecidableEq, Repr

/-- The `eventMetadata` literal assembled at the top of `createPayload`,
including the unconditional crypto fields attached right after (the
`if (formData)` guard is always true). -/
def eventMetadataOf (env : JsEnv) (formData : FormSchema)
    (eventArtworkCid eventId : String) : FunderEventMetadata :=
  { name := formData.name
    dateCreated := toString (env.now 0)
    description := formData.description
    location := formData.location
    date := { startDate := env.dateParse formData.date
              startTime := formData.startTime
              endDate := some (env.dateParse (formData.endTime.getD ""))
              endTime := formData.endTime }
    artwork := eventArtworkCid
    id := eventId
    nearCheckout := none
    sellable := none
    pubKey := some env.pubKeyB64
    encPrivKey := some env.encPrivKeyB64
    iv := some env.ivB64
    salt := some env.saltB64 }

/-- The drop identifier derived for one ticket:
`Date.now().toString() + '-' + slug` where `callIdx` is the index of the
`Date.now()` call inside the invocation. -/
def dropIdFor (env : JsEnv) (callIdx : Nat) (ticket : TicketInfoFormMetadata) : String :=
  toString (env.now callIdx) ++ "-" ++ slugifyName ticket.name

/-- The `ticketExtra` literal built per ticket (its `dateCreated` uses the
next `Date.now()` call). -/
def ticketExtraFor (env : JsEnv) (eventId : String) (callIdx : Nat)
    (ticket : TicketInfoFormMetadata) : TicketMetadataExtra :=
  { dateCreated := toString (env.now (callIdx + 1))
    priceNear := some (ticket.priceNear.getD "0")
    priceFiat := some (ticket.priceFiat.getD "0")
    salesValidThrough := ticket.salesValidThrough
    passValidThrough := ticket.passValidThrough
    maxSupply := ticket.maxSupply
    limitPerUser := ticket.maxPurchases
    eventId := eventId }

/-- The `ticketNftInfo` literal built per ticket; `artwork` is the value
shifted from the front of the caller-owned cid array (empty string when
exhausted, matching `shift() || ''`). -/
def ticketNftInfoFor (env : JsEnv) (eventId : String) (callIdx : Nat)
    (ticket : TicketInfoFormMetadata) (artwork : String) : TicketInfoMetadata :=
  { name := ticket.name
    description := ticket.description
    artwork := some artwork
    extra := some (ticketExtraFor env eventId callIdx ticket) }

/-- The `dropConfig` literal built per ticket. -/
def dropConfigFor (env : JsEnv) (eventId : String) (callIdx : Nat)
    (ticket : TicketInfoFormMetadata) (artwork : String) : DropConfig :=
  { nft_keys_config := { token_metadata := ticketNftInfoFor env eventId callIdx ticket artwork }
    add_key_allowlist := [env.KEYPOM_MARKETPLACE_CONTRACT]
    transfer_key_allowlist := [env.KEYPOM_MARKETPLACE_CONTRACT] }

/-- The constant `assetData` array pushed per ticket. -/
def assetDataFor : List AssetData :=
  [{ uses := 2, assets := [none], config := { permissions := "claim" } }]

/-- Accumulator of the per-ticket `for` loop of `createPayload`: the four
arrays it pushes into, plus the current state of the caller-owned artwork
cid array. -/
structure DropLoopAcc where
  drop_ids : List String
  drop_configs : List DropConfig
  asset_datas : List (List AssetData)
  ticket_information : List (String × MarketKeyInfo)
  artworkCids : List String
  deriving DecidableEq, Repr

/-- The per-ticket `for` loop of `createPayload`.  `callIdx` counts the
`Date.now()` calls already made (two per processed ticket, one before the
loop).  Each iteration derives the drop id, shifts one artwork cid, converts
the price with `parseNearAmount(...)!.toString()` — whose failure aborts the
whole call — assigns the market record entry, and pushes the id, config
and asset data. -/
def buildDrops (env : JsEnv) (eventId : String) :
    List TicketInfoFormMetadata → Nat → DropLoopAcc →
    Except PayloadError DropLoopAcc × List Effect
  | [], _, acc => (.ok acc, [])
  | ticket :: rest, callIdx, acc =>
    let dropId := dropIdFor env callIdx ticket
    let artwork := acc.artworkCids.headD ""
    match parseNearAmount (ticket.priceNear.getD "0") with
    | .error _ => (.error .cannotParseNearThrow, [])
    | .ok none => (.error .nullPriceToString, [])
    | .ok (some price) =>
      let acc2 : DropLoopAcc :=
        { drop_ids := acc.drop_ids ++ [dropId]
          drop_configs := acc.drop_configs ++ [dropConfigFor env eventId callIdx ticket artwork]
          asset_datas := acc.asset_datas ++ [assetDataFor]
          ticket_information := recordInsert acc.ticket_information dropId
            { max_tickets := ticket.maxSupply.getD 0
              price := price
              sale_start := none
              sale_end := none }
          artworkCids := acc.artworkCids.tail }
      let r := buildDrops env eventId rest (callIdx + 2) acc2
      (r.1, Effect.buildDrop :: r.2)

/-- The crypto side effects performed unconditionally after the master-key
check, in program order. -/
def cryptoEffects : List Effect :=
  [.generateKeyPair, .getRandomValues, .deriveKeyFromPassword, .encryptPrivateKey,
   .exportPublicKey]

/-- Source `createPayload`.  Returns the resolved value (or the thrown
error) together with the trace of externally visible side effects.  The
master-key guard is the JavaScript truthiness test `if (!masterKey)`; when it
fires, nothing else runs.  The deposit estimator is invoked on the assembled
event metadata, the form tickets and the accumulated market record; its
division-by-zero (empty ticket list) propagates.  On success exactly one
`FunctionCall` action is assembled. -/
def createPayload (env : JsEnv) (accountId : String) (formData : FormSchema)
    (eventArtworkCid : String) (ticketArtworkCids : List String) (eventId : String) :
    Except PayloadError PayloadResult × List Effect :=
  if isFalsyStr env.masterKey then
    (.error .missingMasterKey, [])
  else
    let eventMetadata := eventMetadataOf env formData eventArtworkCid eventId
    let funderMetadata : List (String × FunderEventMetadata) :=
      recordInsert [] eventId eventMetadata
    let init : DropLoopAcc :=
      { drop_ids := []
        drop_configs := []
        asset_datas := []
        ticket_information := []
        artworkCids := ticketArtworkCids }
    match buildDrops env eventId formData.tickets 1 init with
    | (.error e, effs) => (.error e, cryptoEffects ++ effs)
    | (.ok loopOut, effs) =>
      match calculateDepositCostInt env.byteSizeOfTicketsJson env.byteSizeOfEventJson
          eventMetadata formData.tickets loopOut.ticket_information with
      | .error _ => (.error .divisionByZero, cryptoEffects ++ effs ++ [.estimateDeposit])
      | .ok cbInt =>
        let cb := cbInt.render
        let action : WalletAction :=
          { type := "FunctionCall"
            params :=
              { methodName := "create_drop_batch"
                args :=
                  { drop_ids := loopOut.drop_ids
                    drop_configs := loopOut.drop_configs
                    asset_datas := loopOut.asset_datas
                    change_user_metadata := funderMetadata
                    on_success :=
                      { receiver_id := env.KEYPOM_MARKETPLACE_CONTRACT
                        method_name := "create_event"
                        args :=
                          { event_id := eventId
                            funder_id := accountId
                            ticket_information := loopOut.ticket_information
                            stripe_status := formData.acceptStripePayments
                            stripe_account_id := formData.stripeAccountId }
                        attached_deposit := cb.marketListing } }
                gas := "300000000000000"
                deposit := cb.total } }
        (.ok { actions := [action]
               dropIds := loopOut.drop_ids
               remainingTicketArtworkCids := loopOut.artworkCids },
         cryptoEffects ++ effs ++ [.estimateDeposit, .assembleAction])

/-! ### Specification-side formulas

These definitions follow the wording of the specification (section 4.1) and
are compared against the code path above. -/

/-- Spec formula 1:
`dropDeposit = FIRST_DROP_BASE_COST + (ticketCount - 1) * SUBSEQUENT_DROP_BASE_COST + byteSize(serialize(tickets)) * YOCTO_PER_BYTE`. -/
def specDropDeposit (ticketsByteSize ticketCount : Nat) : Int :=
  FIRST_DROP_BASE_COST + ((ticketCount : Int) - 1) * SUBSEQUENT_DROP_BASE_COST +
    (ticketsByteSize : Int) * YOCTO_PER_BYTE

/-- Spec formula 2:
`funderMetaCost = FUNDER_METADATA_BASE_COST + byteSize(serialize(eventMetadata)) * YOCTO_PER_BYTE`. -/
def specFunderMetaCost (eventByteSize : Nat) : Int :=
  FUNDER_METADATA_BASE_COST + (eventByteSize : Int) * YOCTO_PER_BYTE

/-- Spec formula 3, per-listing part: a listing priced `"0"` contributes
`max_tickets * (BASE_MARKET_BYTES_PER_KEY + METADATA_MARKET_BYTES_PER_KEY) * YOCTO_PER_BYTE * 2`,
any other listing contributes nothing. -/
def specFreeKeyAllowance (info : MarketKeyInfo) : Int :=
  if info.price = "0" then
    (info.max_tickets : Int) * (BASE_MARKET_BYTES_PER_KEY + METADATA_MARKET_BYTES_PER_KEY) *
      YOCTO_PER_BYTE * 2
  else 0

/-- Spec formula 3:
`marketDeposit = FIRST_MARKET_DROP_BASE_COST + (listingCount - 1) * SUBSEQUENT_MARKET_DROP_BASE_COST`
plus the free-key allowance of every listing. -/
def specMarketDeposit (marketTicketInfo : List (String × MarketKeyInfo)) : Int :=
  FIRST_MARKET_DROP_BASE_COST +
    ((marketTicketInfo.length : Int) - 1) * SUBSEQUENT_MARKET_DROP_BASE_COST +
    (marketTicketInfo.map (fun p => specFreeKeyAllowance p.2)).sum

/-! ### Closed forms of the per-ticket loop -/

/-- Closed form of the drop identifiers the loop generates, starting at
`Date.now()` call index `c` (each iteration advances the index by two). -/
def dropIdsFrom (env : JsEnv) : Nat → List TicketInfoFormMetadata → List String
  | _, [] => []
  | c, t :: rest => dropIdFor env c t :: dropIdsFrom env (c + 2) rest

/-- Closed form of the drop configs the loop generates, tracking the artwork
cid list the loop consumes from the front. -/
def dropConfigsFrom (env : JsEnv) (eventId : String) :
    Nat → List String → List TicketInfoFormMetadata → List DropConfig
  | _, _, [] => []
  | c, cids, t :: rest =>
    dropConfigFor env eventId c t (cids.headD "") ::
      dropConfigsFrom env eventId (c + 2) cids.tail rest

/-- The price string the loop stores for a ticket whenever its conversion
succeeds (total by construction; only consulted on the success path). -/
def forcedPrice (ticket : TicketInfoFormMetadata) : String :=
  match parseNearAmount (ticket.priceNear.getD "0") with
  | .ok (some p) => p
  | _ => ""

/-- The market record value assigned for one ticket. -/
def marketEntryFor (ticket : TicketInfoFormMetadata) (price : String) : MarketKeyInfo :=
  { max_tickets := ticket.maxSupply.getD 0
    price := price
    sale_start := none
    sale_end := none }

/-- Closed form of the `(dropId, listing)` pairs the loop assigns into the
`ticket_information` record, in assignment order. -/
def marketEntriesFrom (env : JsEnv) : Nat → List TicketInfoFormMetadata →
    List (String × MarketKeyInfo)
  | _, [] => []
  | c, t :: rest =>
    (dropIdFor env c t, marketEntryFor t (forcedPrice t)) :: marketEntriesFrom env (c + 2) rest

/-- Whether the price conversion of one ticket succeeds
(`parseNearAmount(priceNear ?? '0')` neither throws nor returns `null`). -/
def priceOkB (t : TicketInfoFormMetadata) : Bool :=
  match parseNearAmount (t.priceNear.getD "0") with
  | .ok (some _) => true
  | _ => false

/-- Whether every ticket's price conversion succeeds. -/
def pricesOk (tickets : List TicketInfoFormMetadata) : Bool :=
  tickets.all priceOkB

/-! ### Concrete sample data used by witnesses and counterexamples -/

/-- A default payload result, used only to extract the value out of a
concrete successful run. -/
def emptyPayloadResult : PayloadResult :=
  { actions := [], dropIds := [], remainingTicketArtworkCids := [] }

/-- Extracts the payload of a concrete successful run. -/
def getOkResult (r : Except PayloadError PayloadResult) : PayloadResult :=
  match r with
  | .ok o => o
  | .error _ => emptyPayloadResult

/-- A sample environment: master key present, clock frozen at millisecond 1. -/
def envX : JsEnv :=
  { masterKey := some "master-key"
    now := fun _ => 1
    dateParse := fun _ => 0
    pubKeyB64 := "pk"
    encPrivKeyB64 := "epk"
    ivB64 := "iv"
    saltB64 := "salt"
    KEYPOM_MARKETPLACE_CONTRACT := "market.keypom"
    byteSizeOfTicketsJson := fun _ => 10
    byteSizeOfEventJson := fun _ => 20 }

/-- The sample environment with the master key removed. -/
def envNoKey : JsEnv :=
  { envX with masterKey := none }

/-- A sample ticket type. -/
def sampleTicket (n : String) (p : Option String) (supply : Option Nat) :
    TicketInfoFormMetadata :=
  { name := n
    denomination := "NEAR"
    maxSupply := supply
    maxPurchases := none
    priceNear := p
    priceFiat := none
    description := none
    artwork := none
    salesValidThrough := none
    passValidThrough := none }

/-- A sample form with the given ticket list. -/
def sampleForm (ts : List TicketInfoFormMetadata) : FormSchema :=
  { name := "Ev"
    stripeAccountId := none
    acceptNearPayments := true
    acceptStripePayments := false
    location := "L"
    date := "2024-01-01"
    tickets := ts
    checkoutType := "near"
    description := none
    startTime := none
    endTime := none
    eventArtwork := none }

/-- Two ticket names that differ only by case and whitespace: both slugify
to `vip`, and with a frozen clock both drops get the identifier `1-vip`. -/
def collidingForm : FormSchema :=
  sampleForm [sampleTicket "VIP" (some "0") (some 100), sampleTicket "v ip" none (some 7)]

/-- Two ticket names with distinct slugs. -/
def distinctForm : FormSchema :=
  sampleForm [sampleTicket "VIP" (some "0") (some 100), sampleTicket "GA" (some "1.5") (some 50)]

/-- A one-ticket form: free ticket, `maxSupply = 100` (the spec scenario). -/
def freeTicketForm : FormSchema :=
  sampleForm [sampleTicket "Gala" none (some 100)]

/-- A sample event metadata record (used by deposit-estimator witnesses). -/
def sampleEventMetadata : FunderEventMetadata :=
  eventMetadataOf envX (sampleForm []) "cid" "ev1"

/-- A sample market record with one free and one paid listing. -/
def sampleMarket : List (String × MarketKeyInfo) :=
  [("1-vip", { max_tickets := 100, price := "0", sale_start := none, sale_end := none }),
   ("1-ga", { max_tickets := 50, price := "1500000000000000000000000", sale_start := none,
              sale_end := none })]

/-- The sample market extended by one more free listing. -/
def sampleMarketAppended : List (String × MarketKeyInfo) :=
  sampleMarket ++
    [("2-free", { max_tickets := 5, price := "0", sale_start := none, sale_end := none })]

/-- The sample market with the free listing's `max_tickets` increased. -/
def sampleMarketBigger : List (String × MarketKeyInfo) :=
  [("1-vip", { max_tickets := 150, price := "0", sale_start := none, sale_end := none }),
   ("1-ga", { max_tickets := 50, price := "1500000000000000000000000", sale_start := none,
              sale_end := none })]

/-- The breakdown the estimator computes for the given byte sizes, ticket
count and market record (used to spell out witness instances). -/
def cbFor (bt be n : Nat) (m : List (String × MarketKeyInfo)) : CostBreakdownInt :=
  { perDrop := (specDropDeposit bt n).tdiv (n : Int)
    perEvent := specFunderMetaCost be
    marketListing := specMarketDeposit m
    total := specDropDeposit bt n + specFunderMetaCost be + specMarketDeposit m }

/-- An all-empty action, used only as the default of list extraction in
concrete witnesses. -/
def defaultWalletAction : WalletAction :=
  { type := ""
    params :=
      { methodName := ""
        args :=
          { drop_ids := []
            drop_configs := []
            asset_datas := []
            change_user_metadata := []
            on_success :=
              { receiver_id := ""
                method_name := ""
                args :=
                  { event_id := ""
                    funder_id := ""
                    ticket_information := []
                    stripe_status := false
                    stripe_account_id := none }
                attached_deposit := "" } }
        gas := ""
        deposit := "" } }

/-- The `ticket_information` record accumulated over a whole run. -/
def ticketInfoRecordOf (env : JsEnv) (tickets : List TicketInfoFormMetadata) :
    List (String × MarketKeyInfo) :=
  (marketEntriesFrom env 1 tickets).foldl (fun r p => recordInsert r p.1 p.2) []

/-- The cost breakdown a successful run computes, in closed form. -/
def costBreakdownIntOf (env : JsEnv) (fd : FormSchema) (eac eid : String) : CostBreakdownInt :=
  { perDrop := (specDropDeposit (env.byteSizeOfTicketsJson fd.tickets) fd.tickets.length).tdiv
      (fd.tickets.length : Int)
    perEvent := specFunderMetaCost (env.byteSizeOfEventJson (eventMetadataOf env fd eac eid))
    marketListing := specMarketDeposit (ticketInfoRecordOf env fd.tickets)
    total := specDropDeposit (env.byteSizeOfTicketsJson fd.tickets) fd.tickets.length +
      specFunderMetaCost (env.byteSizeOfEventJson (eventMetadataOf env fd eac eid)) +
      specMarketDeposit (ticketInfoRecordOf env fd.tickets) }

/-- The single action a successful run assembles, in closed form. -/
def payloadActionOf (env : JsEnv) (accountId : String) (fd : FormSchema)
    (eac : String) (cids : List String) (eid : String) : WalletAction :=
  { type := "FunctionCall"
    params :=
      { methodName := "create_drop_batch"
        args :=
          { drop_ids := dropIdsFrom env 1 fd.tickets
            drop_configs := dropConfigsFrom env eid 1 cids fd.tickets
            asset_datas := fd.tickets.map (fun _ => assetDataFor)
            change_user_metadata := [(eid, eventMetadataOf env fd eac eid)]
            on_success :=
              { receiver_id := env.KEYPOM_MARKETPLACE_CONTRACT
                method_name := "create_event"
                args :=
                  { event_id := eid
                    funder_id := accountId
                    ticket_information := ticketInfoRecordOf env fd.tickets
                    stripe_status := fd.acceptStripePayments
                    stripe_account_id := fd.stripeAccountId }
                attached_deposit := (costBreakdownIntOf env fd eac eid).render.marketListing } }
        gas := "300000000000000"
        deposit := (costBreakdownIntOf env fd eac eid).render.total } }

/-! ### Helper lemmas -/

theorem numFreeKeysLoop_go (l : List MarketKeyInfo) (a : Nat) :
    l.foldl (fun acc keyInfo => if keyInfo.price = "0" then acc + keyInfo.max_tickets else acc) a
      = a + numFreeKeysLoop l := by
  induction l generalizing a with
  | nil => simp [numFreeKeysLoop]
  | cons v vs ih =>
    simp only [numFreeKeysLoop, List.foldl_cons] at ih ⊢
    rw [ih, ih (if v.price = "0" then 0 + v.max_tickets else 0)]
    by_cases h : v.price = "0" <;> simp [h] <;> omega

theorem numFreeKeysLoop_cons (v : MarketKeyInfo) (vs : List MarketKeyInfo) :
    numFreeKeysLoop (v :: vs) =
      (if v.price = "0" then v.max_tickets else 0) + numFreeKeysLoop vs := by
  simp only [numFreeKeysLoop, List.foldl_cons]
  rw [numFreeKeysLoop_go]
  by_cases h : v.price = "0" <;> simp [h, numFreeKeysLoop]

theorem numFreeKeysLoop_scaled (vs : List MarketKeyInfo) :
    (numFreeKeysLoop vs : Int) *
      (BASE_MARKET_BYTES_PER_KEY + METADATA_MARKET_BYTES_PER_KEY) * YOCTO_PER_BYTE * 2 =
        (vs.map specFreeKeyAllowance).sum := by
  induction vs with
  | nil => simp [numFreeKeysLoop]
  | cons v vs ih =>
    rw [numFreeKeysLoop_cons]
    simp only [List.map_cons, List.sum_cons]
    rw [← ih]
    by_cases h : v.price = "0" <;>
      simp only [specFreeKeyAllowance, h, if_true, if_false] <;> push_cast <;> ring

theorem calculateDepositCostInt_ok (bt : List TicketInfoFormMetadata → Nat)
    (be : FunderEventMetadata → Nat) (em : FunderEventMetadata)
    (tickets : List TicketInfoFormMetadata) (market : List (String × MarketKeyInfo))
    (ht : tickets ≠ []) :
    calculateDepositCostInt bt be em tickets market =
      .ok { perDrop := (specDropDeposit (bt tickets) tickets.length).tdiv (tickets.length : Int)
            perEvent := specFunderMetaCost (be em)
            marketListing := specMarketDeposit market
            total := specDropDeposit (bt tickets) tickets.length + specFunderMetaCost (be em) +
              specMarketDeposit market } := by
  have hlen : ¬ tickets.length = 0 := by simpa [List.length_eq_zero] using ht
  simp only [calculateDepositCostInt, hlen, if_false]
  have hmkt := numFreeKeysLoop_scaled (market.map Prod.snd)
  rw [List.map_map, Function.comp_def] at hmkt
  simp only [Except.ok.injEq, CostBreakdownInt.mk.injEq]
  refine ⟨rfl, rfl, ?_, ?_⟩
  · simp only [specMarketDeposit, specDropDeposit, specFunderMetaCost]
    rw [← hmkt]
  · simp only [specMarketDeposit, specDropDeposit, specFunderMetaCost]
    rw [← hmkt]

theorem calculateDepositCostInt_empty (bt : List TicketInfoFormMetadata → Nat)
    (be : FunderEventMetadata → Nat) (em : FunderEventMetadata)
    (market : List (String × MarketKeyInfo)) :
    calculateDepositCostInt bt be em [] market = .error .divisionByZero := by
  simp [calculateDepositCostInt]

theorem specDropDeposit_nonneg (b n : Nat) (hn : n ≠ 0) : 0 ≤ specDropDeposit b n := by
  unfold specDropDeposit FIRST_DROP_BASE_COST SUBSEQUENT_DROP_BASE_COST YOCTO_PER_BYTE
  have h1 : (0 : Int) ≤ (n : Int) - 1 := by omega
  have h2 : (0 : Int) ≤ (b : Int) := by positivity
  nlinarith

theorem tdiv_mul_facts (D : Int) (n : Nat) (hD : 0 ≤ D) (hn : n ≠ 0) :
    D.tdiv (n : Int) * n ≤ D ∧ D - D.tdiv (n : Int) * n < n := by
  obtain ⟨m, rfl⟩ : ∃ m : Nat, D = (m : Int) := ⟨D.toNat, (Int.toNat_of_nonneg hD).symm⟩
  rw [← Int.ofNat_tdiv]
  have hInt : (n : Int) * ((m / n : Nat) : Int) + ((m % n : Nat) : Int) = (m : Int) := by
    exact_mod_cast Nat.div_add_mod m n
  have h2 : (((m % n : Nat)) : Int) < (n : Int) := by
    exact_mod_cast Nat.mod_lt _ (Nat.pos_of_ne_zero hn)
  have hc : (n : Int) * ((m / n : Nat) : Int) = ((m / n : Nat) : Int) * (n : Int) :=
    mul_comm _ _
  constructor
  · exact_mod_cast Nat.div_mul_le_self m n
  · linarith

theorem priceOkB_parse (t : TicketInfoFormMetadata) (h : priceOkB t = true) :
    parseNearAmount (t.priceNear.getD "0") = .ok (some (forcedPrice t)) := by
  unfold priceOkB at h
  unfold forcedPrice
  cases hp : parseNearAmount (t.priceNear.getD "0") with
  | error e => rw [hp] at h; simp at h
  | ok o =>
    cases o with
    | none => rw [hp] at h; simp at h
    | some p => rfl

theorem buildDrops_ok_closed (env : JsEnv) (eid : String)
    (tickets : List TicketInfoFormMetadata) :
    ∀ (c : Nat) (acc : DropLoopAcc), pricesOk tickets = true →
      buildDrops env eid tickets c acc =
        (.ok { drop_ids := acc.drop_ids ++ dropIdsFrom env c tickets
               drop_configs := acc.drop_configs ++
                 dropConfigsFrom env eid c acc.artworkCids tickets
               asset_datas := acc.asset_datas ++ tickets.map (fun _ => assetDataFor)
               ticket_information := (marketEntriesFrom env c tickets).foldl
                 (fun r p => recordInsert r p.1 p.2) acc.ticket_information
               artworkCids := acc.artworkCids.drop tickets.length },
         tickets.map (fun _ => Effect.buildDrop)) := by
  induction tickets with
  | nil =>
    intro c acc _
    simp [buildDrops, dropIdsFrom, dropConfigsFrom, marketEntriesFrom]
  | cons t rest ih =>
    intro c acc hok
    have hok2 : priceOkB t = true ∧ pricesOk rest = true := by
      simpa [pricesOk, List.all_cons, Bool.and_eq_true] using hok
    simp only [buildDrops]
    rw [priceOkB_parse t hok2.1]
    simp only []
    rw [ih (c + 2) _ hok2.2]
    simp only [dropIdsFrom, dropConfigsFrom, marketEntriesFrom, List.map_cons,
      List.foldl_cons, List.length_cons, marketEntryFor]
    refine congrArg (fun x => (Except.ok x, _)) ?_
    simp only [List.append_assoc, List.singleton_append]
    rw [← List.drop_one, List.drop_drop, Nat.add_comm 1 rest.length]

theorem buildDrops_fst_isOk (env : JsEnv) (eid : String)
    (tickets : List TicketInfoFormMetadata) :
    ∀ (c : Nat) (acc : DropLoopAcc),
      (buildDrops env eid tickets c acc).1.isOk = pricesOk tickets := by
  induction tickets with
  | nil => intro c acc; simp [buildDrops, pricesOk, Except.isOk, Except.toBool]
  | cons t rest ih =>
    intro c acc
    simp only [buildDrops, pricesOk, List.all_cons]
    cases hp : parseNearAmount (t.priceNear.getD "0") with
    | error e => simp [priceOkB, hp, Except.isOk, Except.toBool]
    | ok o =>
      cases o with
      | none => simp [priceOkB, hp, Except.isOk, Except.toBool]
      | some p =>
        simp only [priceOkB, hp]
        simpa [pricesOk] using ih (c + 2) _

theorem buildDrops_fst_error (env : JsEnv) (eid : String)
    (tickets : List TicketInfoFormMetadata) :
    ∀ (c : Nat) (acc : DropLoopAcc) (e : PayloadError),
      (buildDrops env eid tickets c acc).1 = .error e →
        e = .cannotParseNearThrow ∨ e = .nullPriceToString := by
  induction tickets with
  | nil => intro c acc e h; simp [buildDrops] at h
  | cons t rest ih =>
    intro c acc e h
    simp only [buildDrops] at h
    cases hp : parseNearAmount (t.priceNear.getD "0") with
    | error e2 => rw [hp] at h; simp at h; exact Or.inl h.symm
    | ok o =>
      cases o with
      | none => rw [hp] at h; simp at h; exact Or.inr h.symm
      | some p =>
        rw [hp] at h
        simp only [] at h
        exact ih (c + 2) _ e h

theorem recordInsert_nil (k : String) (v : α) : recordInsert [] k v = [(k, v)] := by
  simp [recordInsert]

theorem createPayload_masterKey_missing (env : JsEnv) (a : String) (fd : FormSchema)
    (eac : String) (cids : List String) (eid : String)
    (hmk : isFalsyStr env.masterKey = true) :
    createPayload env a fd eac cids eid = (.error .missingMasterKey, []) := by
  unfold createPayload
  rw [hmk]
  simp

theorem createPayload_loop_error (env : JsEnv) (a : String) (fd : FormSchema)
    (eac : String) (cids : List String) (eid : String) (e : PayloadError)
    (effs : List Effect)
    (hmk : isFalsyStr env.masterKey = false)
    (hbd : buildDrops env eid fd.tickets 1
        { drop_ids := [], drop_configs := [], asset_datas := [], ticket_information := [],
          artworkCids := cids } = (.error e, effs)) :
    createPayload env a fd eac cids eid = (.error e, cryptoEffects ++ effs) := by
  unfold createPayload
  rw [hmk]
  simp only [Bool.false_eq_true, if_false]
  rw [hbd]

theorem createPayload_empty_tickets (env : JsEnv) (a : String) (fd : FormSchema)
    (eac : String) (cids : List String) (eid : String)
    (hmk : isFalsyStr env.masterKey = false)
    (hte : fd.tickets = []) :
    createPayload env a fd eac cids eid =
      (.error .divisionByZero, cryptoEffects ++ [.estimateDeposit]) := by
  unfold createPayload
  rw [hmk, hte]
  simp only [Bool.false_eq_true, if_false, buildDrops]
  rw [calculateDepositCostInt_empty]
  simp

theorem createPayload_ok_closed (env : JsEnv) (a : String) (fd : FormSchema)
    (eac : String) (cids : List String) (eid : String)
    (hmk : isFalsyStr env.masterKey = false)
    (hpr : pricesOk fd.tickets = true)
    (hne : fd.tickets ≠ []) :
    createPayload env a fd eac cids eid =
      (.ok { actions := [payloadActionOf env a fd eac cids eid]
             dropIds := dropIdsFrom env 1 fd.tickets
             remainingTicketArtworkCids := cids.drop fd.tickets.length },
       cryptoEffects ++ fd.tickets.map (fun _ => Effect.buildDrop) ++
         [.estimateDeposit, .assembleAction]) := by
  unfold createPayload
  rw [hmk]
  simp only [Bool.false_eq_true, if_false]
  rw [buildDrops_ok_closed env eid fd.tickets 1 _ hpr]
  simp only [List.nil_append]
  rw [calculateDepositCostInt_ok env.byteSizeOfTicketsJson env.byteSizeOfEventJson
    (eventMetadataOf env fd eac eid) fd.tickets _ hne]
  simp only [payloadActionOf, costBreakdownIntOf, ticketInfoRecordOf, CostBreakdownInt.render,
    recordInsert_nil]

theorem createPayload_fst_isOk (env : JsEnv) (a : String) (fd : FormSchema)
    (eac : String) (cids : List String) (eid : String) :
    (createPayload env a fd eac cids eid).1.isOk =
      (!isFalsyStr env.masterKey && pricesOk fd.tickets && !fd.tickets.isEmpty) := by
  cases hmk : isFalsyStr env.masterKey with
  | true =>
    rw [createPayload_masterKey_missing env a fd eac cids eid hmk]
    simp [Except.isOk, Except.toBool]
  | false =>
    cases hpr : pricesOk fd.tickets with
    | false =>
      have hb := buildDrops_fst_isOk env eid fd.tickets 1
        { drop_ids := [], drop_configs := [], asset_datas := [], ticket_information := [],
          artworkCids := cids }
      rw [hpr] at hb
      rcases hres : buildDrops env eid fd.tickets 1
        { drop_ids := [], drop_configs := [], asset_datas := [], ticket_information := [],
          artworkCids := cids } with ⟨r, es⟩
      rw [hres] at hb
      cases r with
      | ok l => simp [Except.isOk, Except.toBool] at hb
      | error e =>
        rw [createPayload_loop_error env a fd eac cids eid e es hmk hres]
        simp [Except.isOk, Except.toBool]
    | true =>
      cases hte : fd.tickets with
      | nil =>
        rw [createPayload_empty_tickets env a fd eac cids eid hmk hte]
        simp [Except.isOk, Except.toBool, hte]
      | cons t rest =>
        have hne : fd.tickets ≠ [] := by rw [hte]; simp
        rw [createPayload_ok_closed env a fd eac cids eid hmk hpr hne]
        simp [Except.isOk, Except.toBool, hte]

theorem createPayload_ok_inv (env : JsEnv) (a : String) (fd : FormSchema)
    (eac : String) (cids : List String) (eid : String) (out : PayloadResult)
    (tr : List Effect)
    (h : createPayload env a fd eac cids eid = (.ok out, tr)) :
    isFalsyStr env.masterKey = false ∧ pricesOk fd.tickets = true ∧ fd.tickets ≠ [] ∧
      out = { actions := [payloadActionOf env a fd eac cids eid]
              dropIds := dropIdsFrom env 1 fd.tickets
              remainingTicketArtworkCids := cids.drop fd.tickets.length } := by
  have hok : (createPayload env a fd eac cids eid).1.isOk = true := by
    rw [h]; rfl
  rw [createPayload_fst_isOk] at hok
  have hmk : isFalsyStr env.masterKey = false := by
    cases hmk2 : isFalsyStr env.masterKey with
    | false => rfl
    | true => rw [hmk2] at hok; simp at hok
  have hpr : pricesOk fd.tickets = true := by
    cases hpr2 : pricesOk fd.tickets with
    | true => rfl
    | false => rw [hpr2] at hok; simp at hok
  have hne : fd.tickets ≠ [] := by
    intro he
    rw [hmk, hpr, he] at hok
    simp at hok
  refine ⟨hmk, hpr, hne, ?_⟩
  rw [createPayload_ok_closed env a fd eac cids eid hmk hpr hne] at h
  rw [Prod.ext_iff] at h
  obtain ⟨h1, _⟩ := h
  exact ((Except.ok.injEq _ _).mp h1).symm

theorem dropIdsFrom_length (env : JsEnv) (tickets : List TicketInfoFormMetadata) :
    ∀ c, (dropIdsFrom env c tickets).length = tickets.length := by
  induction tickets with
  | nil => intro c; rfl
  | cons t rest ih => intro c; simp [dropIdsFrom, ih]

theorem dropIdsFrom_const_now (env : JsEnv) (hc : ∀ i, env.now i = env.now 0)
    (tickets : List TicketInfoFormMetadata) :
    ∀ c, dropIdsFrom env c tickets =
      tickets.map (fun t => toString (env.now 0) ++ "-" ++ slugifyName t.name) := by
  induction tickets with
  | nil => intro c; rfl
  | cons t rest ih => intro c; simp [dropIdsFrom, dropIdFor, hc c, ih]

theorem digitChar_ne_dash (m : Nat) (hm : m < 10) : Nat.digitChar m ≠ '-' := by
  interval_cases m <;> decide

theorem toDigitsCore_ne_dash (fuel : Nat) :
    ∀ (n : Nat) (ds : List Char), (∀ ch ∈ ds, ch ≠ '-') →
      ∀ ch ∈ Nat.toDigitsCore 10 fuel n ds, ch ≠ '-' := by
  induction fuel with
  | zero =>
    intro n ds hds ch hch
    simp only [Nat.toDigitsCore] at hch
    exact hds ch hch
  | succ fuel ih =>
    intro n ds hds ch hch
    simp only [Nat.toDigitsCore] at hch
    have hdg : Nat.digitChar (n % 10) ≠ '-' :=
      digitChar_ne_dash (n % 10) (Nat.mod_lt n (by decide))
    by_cases h : n / 10 = 0
    · rw [if_pos h] at hch
      rcases List.mem_cons.mp hch with h2 | h2
      · rw [h2]; exact hdg
      · exact hds ch h2
    · rw [if_neg h] at hch
      refine ih (n / 10) (Nat.digitChar (n % 10) :: ds) ?_ ch hch
      intro c hc
      rcases List.mem_cons.mp hc with h2 | h2
      · rw [h2]; exact hdg
      · exact hds c h2

theorem natRepr_ne_dash (n : Nat) : ∀ ch ∈ (Nat.repr n).data, ch ≠ '-' := by
  intro ch hch
  have hdata : (Nat.repr n).data = Nat.toDigitsCore 10 (n + 1) n [] := rfl
  rw [hdata] at hch
  exact toDigitsCore_ne_dash (n + 1) n [] (by intro c hc; cases hc) ch hch

theorem append_dash_inj : ∀ (l1 l2 r1 r2 : List Char),
    (∀ ch ∈ l1, ch ≠ '-') → (∀ ch ∈ l2, ch ≠ '-') →
    l1 ++ '-' :: r1 = l2 ++ '-' :: r2 → l1 = l2 ∧ r1 = r2 := by
  intro l1
  induction l1 with
  | nil =>
    intro l2 r1 r2 h1 h2 h
    cases l2 with
    | nil => simpa using h
    | cons c l2' =>
      simp only [List.nil_append, List.cons_append, List.cons.injEq] at h
      exact absurd h.1.symm (h2 c (List.mem_cons_self c l2'))
  | cons c l1' ih =>
    intro l2 r1 r2 h1 h2 h
    cases l2 with
    | nil =>
      simp only [List.nil_append, List.cons_append, List.cons.injEq] at h
      exact absurd h.1 (h1 c (List.mem_cons_self c l1'))
    | cons c2 l2' =>
      simp only [List.cons_append, List.cons.injEq] at h
      obtain ⟨hc, h'⟩ := h
      obtain ⟨he1, he2⟩ := ih l2' r1 r2
        (fun ch hch => h1 ch (List.mem_cons_of_mem c hch))
        (fun ch hch => h2 ch (List.mem_cons_of_mem c2 hch)) h'
      subst hc
      exact ⟨by rw [he1], he2⟩

theorem string_mk_inj {s1 s2 : String} (h : s1.data = s2.data) : s1 = s2 :=
  congrArg String.mk h

theorem dropIdFor_slug_eq (env : JsEnv) (c1 c2 : Nat) (t1 t2 : TicketInfoFormMetadata)
    (h : dropIdFor env c1 t1 = dropIdFor env c2 t2) :
    slugifyName t1.name = slugifyName t2.name := by
  unfold dropIdFor at h
  have hd := congrArg String.data h
  simp only [String.data_append] at hd
  rw [List.append_assoc, List.append_assoc] at hd
  simp only [List.singleton_append] at hd
  have hfree1 : ∀ ch ∈ (toString (env.now c1)).data, ch ≠ '-' := natRepr_ne_dash (env.now c1)
  have hfree2 : ∀ ch ∈ (toString (env.now c2)).data, ch ≠ '-' := natRepr_ne_dash (env.now c2)
  obtain ⟨-, hs⟩ := append_dash_inj _ _ _ _ hfree1 hfree2 hd
  exact string_mk_inj hs

theorem mem_dropIdsFrom (env : JsEnv) (tickets : List TicketInfoFormMetadata) :
    ∀ c x, x ∈ dropIdsFrom env c tickets →
      ∃ cc t, t ∈ tickets ∧ x = dropIdFor env cc t := by
  induction tickets with
  | nil => intro c x hx; simp [dropIdsFrom] at hx
  | cons t rest ih =>
    intro c x hx
    simp only [dropIdsFrom, List.mem_cons] at hx
    rcases hx with rfl | hx
    · exact ⟨c, t, List.mem_cons_self t rest, rfl⟩
    · obtain ⟨cc, t', ht', heq⟩ := ih (c + 2) x hx
      exact ⟨cc, t', List.mem_cons_of_mem t ht', heq⟩

theorem dropIdsFrom_nodup (env : JsEnv) (tickets : List TicketInfoFormMetadata) :
    ∀ c, (tickets.map (fun t => slugifyName t.name)).Nodup →
      (dropIdsFrom env c tickets).Nodup := by
  induction tickets with
  | nil => intro c _; simp [dropIdsFrom]
  | cons t rest ih =>
    intro c hslugs
    simp only [List.map_cons, List.nodup_cons] at hslugs
    obtain ⟨hhead, htail⟩ := hslugs
    simp only [dropIdsFrom, List.nodup_cons]
    refine ⟨?_, ih (c + 2) htail⟩
    intro hmem
    obtain ⟨cc, t', ht', heq⟩ := mem_dropIdsFrom env rest (c + 2) _ hmem
    have hs := dropIdFor_slug_eq env c cc t t' heq
    exact hhead (by rw [hs]; exact List.mem_map_of_mem _ ht')

theorem string_append_left_cancel {a b c : String} (h : a ++ b = a ++ c) : b = c := by
  have hd : a.data ++ b.data = a.data ++ c.data := by
    rw [← String.data_append, ← String.data_append, h]
  have hbc := List.append_cancel_left hd
  cases b with | mk db =>
  cases c with | mk dc =>
  exact congrArg String.mk hbc

theorem getD_tail (l : List α) (k : Nat) (d : α) : l.tail.getD k d = l.getD (k + 1) d := by
  cases l <;> simp [List.getD_cons_succ]

theorem dropConfigsFrom_getElem (env : JsEnv) (eid : String)
    (tickets : List TicketInfoFormMetadata) :
    ∀ (c : Nat) (cids : List String) (k : Nat) (t : TicketInfoFormMetadata),
      tickets[k]? = some t →
      (dropConfigsFrom env eid c cids tickets)[k]? =
        some (dropConfigFor env eid (c + 2 * k) t (cids.getD k "")) := by
  induction tickets with
  | nil => intro c cids k t h; simp at h
  | cons t0 rest ih =>
    intro c cids k t h
    cases k with
    | zero =>
      rw [List.getElem?_cons_zero, Option.some.injEq] at h
      subst h
      cases cids <;> simp [dropConfigsFrom, List.getD]
    | succ k =>
      rw [List.getElem?_cons_succ] at h
      simp only [dropConfigsFrom, List.getElem?_cons_succ]
      rw [ih (c + 2) cids.tail k t h, getD_tail]
      have harith : c + 2 + 2 * k = c + 2 * (k + 1) := by omega
      rw [harith]

theorem marketEntriesFrom_getElem (env : JsEnv) (tickets : List TicketInfoFormMetadata) :
    ∀ (c k : Nat) (t : TicketInfoFormMetadata), tickets[k]? = some t →
      (marketEntriesFrom env c tickets)[k]? =
        some (dropIdFor env (c + 2 * k) t, marketEntryFor t (forcedPrice t)) := by
  induction tickets with
  | nil => intro c k t h; simp at h
  | cons t0 rest ih =>
    intro c k t h
    cases k with
    | zero =>
      rw [List.getElem?_cons_zero, Option.some.injEq] at h
      subst h
      simp [marketEntriesFrom]
    | succ k =>
      rw [List.getElem?_cons_succ] at h
      simp only [marketEntriesFrom, List.getElem?_cons_succ]
      rw [ih (c + 2) k t h]
      have harith : c + 2 + 2 * k = c + 2 * (k + 1) := by omega
      rw [harith]

theorem marketEntriesFrom_length (env : JsEnv) (tickets : List TicketInfoFormMetadata) :
    ∀ c, (marketEntriesFrom env c tickets).length = tickets.length := by
  induction tickets with
  | nil => intro c; rfl
  | cons t rest ih => intro c; simp [marketEntriesFrom, ih]

theorem marketEntriesFrom_keys (env : JsEnv) (tickets : List TicketInfoFormMetadata) :
    ∀ c, (marketEntriesFrom env c tickets).map Prod.fst = dropIdsFrom env c tickets := by
  induction tickets with
  | nil => intro c; rfl
  | cons t rest ih => intro c; simp [marketEntriesFrom, dropIdsFrom, ih]

theorem foldl_recordInsert_nodup (l : List (String × α)) :
    ∀ acc : List (String × α), ((acc ++ l).map Prod.fst).Nodup →
      l.foldl (fun r p => recordInsert r p.1 p.2) acc = acc ++ l := by
  induction l with
  | nil => intro acc h; simp
  | cons p ps ih =>
    intro acc h
    have hnd := h
    rw [List.map_append, List.map_cons, List.nodup_append] at hnd
    obtain ⟨-, -, hdisj⟩ := hnd
    have hnot : (acc.any fun q => q.1 = p.1) = false := by
      rw [Bool.eq_false_iff]
      intro hany
      rw [List.any_eq_true] at hany
      obtain ⟨q, hq, hq1⟩ := hany
      have : q.1 ∈ acc.map Prod.fst := List.mem_map_of_mem Prod.fst hq
      exact hdisj this (by simp [of_decide_eq_true hq1])
    simp only [List.foldl_cons]
    have hins : recordInsert acc p.1 p.2 = acc ++ [p] := by
      simp [recordInsert, hnot]
    rw [hins, ih (acc ++ [p]) (by simpa [List.append_assoc] using h)]
    simp

theorem numFreeKeysLoop_getElem (values : List MarketKeyInfo) :
    ∀ (k : Nat) (info : MarketKeyInfo), values[k]? = some info →
      numFreeKeysLoop values =
        (if info.price = "0" then info.max_tickets else 0) +
          numFreeKeysLoop (values.eraseIdx k) := by
  induction values with
  | nil => intro k info h; simp at h
  | cons v vs ih =>
    intro k info h
    cases k with
    | zero =>
      rw [List.getElem?_cons_zero, Option.some.injEq] at h
      subst h
      simp [numFreeKeysLoop_cons]
    | succ k =>
      rw [List.getElem?_cons_succ] at h
      rw [numFreeKeysLoop_cons, List.eraseIdx_cons_succ, numFreeKeysLoop_cons, ih k info h]
      omega

theorem specFreeKeyAllowance_nonneg (info : MarketKeyInfo) : 0 ≤ specFreeKeyAllowance info := by
  unfold specFreeKeyAllowance
  by_cases h : info.price = "0"
  · simp only [h, if_true]
    have h1 : (0 : Int) ≤ BASE_MARKET_BYTES_PER_KEY + METADATA_MARKET_BYTES_PER_KEY := by decide
    have h2 : (0 : Int) ≤ YOCTO_PER_BYTE := by decide
    positivity
  · simp [h]

theorem specMarketDeposit_append (m : List (String × MarketKeyInfo)) (k : String)
    (info : MarketKeyInfo) :
    specMarketDeposit m ≤ specMarketDeposit (m ++ [(k, info)]) := by
  unfold specMarketDeposit
  rw [List.length_append, List.map_append, List.sum_append]
  have hS : (0 : Int) ≤ SUBSEQUENT_MARKET_DROP_BASE_COST := by decide
  have hA : 0 ≤ ([(k, info)].map (fun p => specFreeKeyAllowance p.2)).sum := by
    simp [specFreeKeyAllowance_nonneg]
  have hlen : ((m.length : Int) - 1) * SUBSEQUENT_MARKET_DROP_BASE_COST ≤
      (((m.length + 1 : Nat) : Int) - 1) * SUBSEQUENT_MARKET_DROP_BASE_COST := by
    have : ((m.length : Int) - 1) ≤ (((m.length + 1 : Nat) : Int) - 1) := by push_cast; omega
    exact mul_le_mul_of_nonneg_right this hS
  simp only [List.length_singleton]
  linarith

theorem specFreeKeyAllowance_mono (p q : MarketKeyInfo) (hp : p.price = q.price)
    (hm : p.max_tickets ≤ q.max_tickets) :
    specFreeKeyAllowance p ≤ specFreeKeyAllowance q := by
  unfold specFreeKeyAllowance
  rw [hp]
  by_cases h : q.price = "0"
  · simp only [h, if_true]
    have hmt : (p.max_tickets : Int) ≤ (q.max_tickets : Int) := by exact_mod_cast hm
    have h1 : (0 : Int) ≤ BASE_MARKET_BYTES_PER_KEY + METADATA_MARKET_BYTES_PER_KEY := by decide
    have h2 : (0 : Int) ≤ YOCTO_PER_BYTE := by decide
    have h3 : (0 : Int) ≤ 2 := by decide
    exact mul_le_mul_of_nonneg_right
      (mul_le_mul_of_nonneg_right (mul_le_mul_of_nonneg_right hmt h1) h2) h3
  · simp [h]

theorem specMarketDeposit_mono_pointwise (m₁ m₂ : List (String × MarketKeyInfo))
    (h : List.Forall₂ (fun p q => p.2.price = q.2.price ∧ p.2.max_tickets ≤ q.2.max_tickets)
      m₁ m₂) :
    specMarketDeposit m₁ ≤ specMarketDeposit m₂ := by
  unfold specMarketDeposit
  rw [h.length_eq]
  have hsum : (m₁.map fun p => specFreeKeyAllowance p.2).sum ≤
      (m₂.map fun p => specFreeKeyAllowance p.2).sum := by
    induction h with
    | nil => exact le_refl _
    | cons hpq hrest ih =>
      simp only [List.map_cons, List.sum_cons]
      exact add_le_add (specFreeKeyAllowance_mono _ _ hpq.1 hpq.2) ih
  linarith

/-! ### Claims -/

/-- C1: for every non-empty tickets list and non-empty marketTicketInfo
record (and any byte-size measure of the serialized structures),
`calculateDepositCost` computes in exact arbitrary-precision integer
arithmetic
`dropDeposit = FIRST_DROP_BASE_COST + (ticketCount - 1) * SUBSEQUENT_DROP_BASE_COST + byteSize(serialized tickets) * YOCTO_PER_BYTE`,
`funderMetaCost = FUNDER_METADATA_BASE_COST + byteSize(serialized eventMetadata) * YOCTO_PER_BYTE`,
and `marketDeposit = FIRST_MARKET_DROP_BASE_COST + (listingCount - 1) * SUBSEQUENT_MARKET_DROP_BASE_COST`
plus, for every listing whose price equals `"0"`,
`max_tickets * (BASE_MARKET_BYTES_PER_KEY + METADATA_MARKET_BYTES_PER_KEY) * YOCTO_PER_BYTE * 2`. -/
theorem C1_depositCost_formulas
    (bt : List TicketInfoFormMetadata → Nat) (be : FunderEventMetadata → Nat)
    (em : FunderEventMetadata) (tickets : List TicketInfoFormMetadata)
    (market : List (String × MarketKeyInfo))
    (ht : tickets ≠ []) (hm : market ≠ []) :
    calculateDepositCostInt bt be em tickets market =
      .ok { perDrop := (specDropDeposit (bt tickets) tickets.length).tdiv (tickets.length : Int)
            perEvent := specFunderMetaCost (be em)
            marketListing := specMarketDeposit market
            total := specDropDeposit (bt tickets) tickets.length + specFunderMetaCost (be em) +
              specMarketDeposit market } :=
  calculateDepositCostInt_ok bt be em tickets market ht

/-- Witness for C1: a one-ticket, two-listing instance. -/
theorem C1_witness :
    calculateDepositCostInt (fun _ => 10) (fun _ => 20) sampleEventMetadata
        [sampleTicket "VIP" (some "0") (some 100)] sampleMarket =
      .ok (cbFor 10 20 1 sampleMarket) :=
  C1_depositCost_formulas (fun _ => 10) (fun _ => 20) sampleEventMetadata
    [sampleTicket "VIP" (some "0") (some 100)] sampleMarket (by decide) (by decide)

/-- C2: for every ticket count at least one, `perDrop` is the drop deposit
divided by the ticket count with the remainder dropped, so
`perDrop * ticketCount ≤ dropDeposit` and the difference is below the ticket
count; `total` equals the undivided sum
`dropDeposit + funderMetaCost + marketDeposit` exactly. -/
theorem C2_perDrop_truncation
    (bt : List TicketInfoFormMetadata → Nat) (be : FunderEventMetadata → Nat)
    (em : FunderEventMetadata) (tickets : List TicketInfoFormMetadata)
    (market : List (String × MarketKeyInfo))
    (ht : tickets ≠ []) :
    ∃ cb, calculateDepositCostInt bt be em tickets market = .ok cb ∧
      cb.perDrop * (tickets.length : Int) ≤ specDropDeposit (bt tickets) tickets.length ∧
      specDropDeposit (bt tickets) tickets.length - cb.perDrop * (tickets.length : Int) <
        (tickets.length : Int) ∧
      cb.total = specDropDeposit (bt tickets) tickets.length + specFunderMetaCost (be em) +
        specMarketDeposit market := by
  have hn : tickets.length ≠ 0 := by simpa [List.length_eq_zero] using ht
  have hD := specDropDeposit_nonneg (bt tickets) tickets.length hn
  refine ⟨_, calculateDepositCostInt_ok bt be em tickets market ht, ?_, ?_, rfl⟩
  · exact (tdiv_mul_facts _ _ hD hn).1
  · exact (tdiv_mul_facts _ _ hD hn).2

/-- Witness for C2. -/
theorem C2_witness :
    ∃ cb, calculateDepositCostInt (fun _ => 10) (fun _ => 20) sampleEventMetadata
        [sampleTicket "VIP" (some "0") (some 100)] sampleMarket = .ok cb ∧
      cb.perDrop * (([sampleTicket "VIP" (some "0") (some 100)].length : Nat) : Int) ≤
        specDropDeposit 10 1 ∧
      specDropDeposit 10 1 -
        cb.perDrop * (([sampleTicket "VIP" (some "0") (some 100)].length : Nat) : Int) <
        ((1 : Nat) : Int) ∧
      cb.total = specDropDeposit 10 1 + specFunderMetaCost 20 + specMarketDeposit sampleMarket :=
  C2_perDrop_truncation (fun _ => 10) (fun _ => 20) sampleEventMetadata
    [sampleTicket "VIP" (some "0") (some 100)] sampleMarket (by decide)

/-- C7: holding all other inputs fixed, the `marketListing` component of the
cost breakdown is monotonically non-decreasing in the number of listings
priced `"0"` (adding a free listing never decreases it) and in each free
listing's `max_tickets` (increasing `max_tickets` pointwise, prices fixed,
never decreases it). -/
theorem C7_marketDeposit_monotone :
    (∀ (bt : List TicketInfoFormMetadata → Nat) (be : FunderEventMetadata → Nat)
        (em : FunderEventMetadata) (tickets : List TicketInfoFormMetadata)
        (m : List (String × MarketKeyInfo)) (k : String) (info : MarketKeyInfo)
        (cb₁ cb₂ : CostBreakdownInt),
      tickets ≠ [] → info.price = "0" →
      calculateDepositCostInt bt be em tickets m = .ok cb₁ →
      calculateDepositCostInt bt be em tickets (m ++ [(k, info)]) = .ok cb₂ →
      cb₁.marketListing ≤ cb₂.marketListing) ∧
    (∀ (bt : List TicketInfoFormMetadata → Nat) (be : FunderEventMetadata → Nat)
        (em : FunderEventMetadata) (tickets : List TicketInfoFormMetadata)
        (m₁ m₂ : List (String × MarketKeyInfo)) (cb₁ cb₂ : CostBreakdownInt),
      tickets ≠ [] →
      List.Forall₂ (fun p q => p.2.price = q.2.price ∧ p.2.max_tickets ≤ q.2.max_tickets)
        m₁ m₂ →
      calculateDepositCostInt bt be em tickets m₁ = .ok cb₁ →
      calculateDepositCostInt bt be em tickets m₂ = .ok cb₂ →
      cb₁.marketListing ≤ cb₂.marketListing) := by
  constructor
  · intro bt be em tickets m k info cb₁ cb₂ ht _ h1 h2
    rw [calculateDepositCostInt_ok bt be em tickets m ht] at h1
    rw [calculateDepositCostInt_ok bt be em tickets (m ++ [(k, info)]) ht] at h2
    obtain rfl : cb₁ = _ := ((Except.ok.injEq _ _).mp h1).symm
    obtain rfl : cb₂ = _ := ((Except.ok.injEq _ _).mp h2).symm
    exact specMarketDeposit_append m k info
  · intro bt be em tickets m₁ m₂ cb₁ cb₂ ht hrel h1 h2
    rw [calculateDepositCostInt_ok bt be em tickets m₁ ht] at h1
    rw [calculateDepositCostInt_ok bt be em tickets m₂ ht] at h2
    obtain rfl : cb₁ = _ := ((Except.ok.injEq _ _).mp h1).symm
    obtain rfl : cb₂ = _ := ((Except.ok.injEq _ _).mp h2).symm
    exact specMarketDeposit_mono_pointwise m₁ m₂ hrel

/-- Witness for C7: adding a free listing and growing a free listing's
`max_tickets` both leave the market deposit non-decreasing on a concrete
instance. -/
theorem C7_witness :
    (cbFor 10 20 1 sampleMarket).marketListing ≤
        (cbFor 10 20 1 sampleMarketAppended).marketListing ∧
      (cbFor 10 20 1 sampleMarket).marketListing ≤
        (cbFor 10 20 1 sampleMarketBigger).marketListing :=
  ⟨C7_marketDeposit_monotone.1 (fun _ => 10) (fun _ => 20) sampleEventMetadata
      [sampleTicket "VIP" (some "0") (some 100)] sampleMarket "2-free"
      { max_tickets := 5, price := "0", sale_start := none, sale_end := none }
      (cbFor 10 20 1 sampleMarket) (cbFor 10 20 1 sampleMarketAppended)
      (by decide) (by decide) (by decide) (by decide),
   C7_marketDeposit_monotone.2 (fun _ => 10) (fun _ => 20) sampleEventMetadata
      [sampleTicket "VIP" (some "0") (some 100)] sampleMarket sampleMarketBigger
      (cbFor 10 20 1 sampleMarket) (cbFor 10 20 1 sampleMarketBigger)
      (by decide)
      (List.Forall₂.cons (by exact ⟨rfl, by decide⟩)
        (List.Forall₂.cons (by exact ⟨rfl, by decide⟩) List.Forall₂.nil))
      (by decide) (by decide)⟩

/-- C9: `calculateDepositCost` has no error path beyond the precondition:
on every non-empty tickets list and non-empty market record it returns a
breakdown without raising, while an empty tickets list hits the
division-by-zero anomaly instead of a normal result. -/
theorem C9_depositCost_totality
    (bt : List TicketInfoFormMetadata → Nat) (be : FunderEventMetadata → Nat)
    (em : FunderEventMetadata) (tickets : List TicketInfoFormMetadata)
    (market : List (String × MarketKeyInfo)) :
    (tickets ≠ [] → market ≠ [] →
      (calculateDepositCostInt bt be em tickets market).isOk = true) ∧
    (tickets = [] →
      calculateDepositCostInt bt be em tickets market = .error .divisionByZero) := by
  constructor
  · intro ht _
    rw [calculateDepositCostInt_ok bt be em tickets market ht]
    rfl
  · intro he
    subst he
    exact calculateDepositCostInt_empty bt be em market

/-- Witness for C9: the non-empty instance succeeds, the empty-tickets
instance hits the division-by-zero error. -/
theorem C9_witness :
    (calculateDepositCostInt (fun _ => 10) (fun _ => 20) sampleEventMetadata
        [sampleTicket "VIP" (some "0") (some 100)] sampleMarket).isOk = true ∧
    calculateDepositCostInt (fun _ => 10) (fun _ => 20) sampleEventMetadata [] sampleMarket =
      .error .divisionByZero :=
  ⟨(C9_depositCost_totality (fun _ => 10) (fun _ => 20) sampleEventMetadata
      [sampleTicket "VIP" (some "0") (some 100)] sampleMarket).1 (by decide) (by decide),
   (C9_depositCost_totality (fun _ => 10) (fun _ => 20) sampleEventMetadata [] sampleMarket).2
      rfl⟩

/-- C4: when the master key material is absent (the JavaScript truthiness
test `!masterKey` fires, i.e. the stored value is `null` or empty),
`createPayload` throws the missing-master-key configuration error before any
side effect: the effect trace is empty, so no key generation, no drop
construction, no deposit estimation and no action assembly happen.  When a
non-empty master key is present, no thrown error is ever the
missing-master-key error. -/
theorem C4_masterKey_guard :
    (∀ (env : JsEnv) (a : String) (fd : FormSchema) (eac : String) (cids : List String)
        (eid : String), isFalsyStr env.masterKey = true →
        createPayload env a fd eac cids eid = (.error .missingMasterKey, [])) ∧
    (∀ (env : JsEnv) (a : String) (fd : FormSchema) (eac : String) (cids : List String)
        (eid : String) (key : String) (e : PayloadError) (tr : List Effect),
        env.masterKey = some key → key ≠ "" →
        createPayload env a fd eac cids eid = (.error e, tr) → e ≠ .missingMasterKey) := by
  constructor
  · exact fun env a fd eac cids eid hmk =>
      createPayload_masterKey_missing env a fd eac cids eid hmk
  · intro env a fd eac cids eid key e tr hkey hne h
    have hmk : isFalsyStr env.masterKey = false := by
      rw [hkey]
      simpa [isFalsyStr] using hne
    cases hpr : pricesOk fd.tickets with
    | false =>
      have hb := buildDrops_fst_isOk env eid fd.tickets 1
        { drop_ids := [], drop_configs := [], asset_datas := [], ticket_information := [],
          artworkCids := cids }
      rw [hpr] at hb
      rcases hres : buildDrops env eid fd.tickets 1
        { drop_ids := [], drop_configs := [], asset_datas := [], ticket_information := [],
          artworkCids := cids } with ⟨r, es⟩
      rw [hres] at hb
      cases r with
      | ok l => simp [Except.isOk, Except.toBool] at hb
      | error e2 =>
        rw [createPayload_loop_error env a fd eac cids eid e2 es hmk hres] at h
        rw [Prod.ext_iff] at h
        obtain ⟨h1, -⟩ := h
        obtain rfl : e2 = e := (Except.error.injEq _ _).mp h1
        have he2 : (buildDrops env eid fd.tickets 1
            { drop_ids := [], drop_configs := [], asset_datas := [], ticket_information := [],
              artworkCids := cids }).1 = .error e2 := by rw [hres]
        rcases buildDrops_fst_error env eid fd.tickets 1 _ e2 he2 with h | h <;>
          (rw [h]; intro hc; cases hc)
    | true =>
      cases hte : fd.tickets with
      | nil =>
        rw [createPayload_empty_tickets env a fd eac cids eid hmk hte] at h
        rw [Prod.ext_iff] at h
        obtain ⟨h1, -⟩ := h
        obtain rfl : PayloadError.divisionByZero = e := (Except.error.injEq _ _).mp h1
        intro hc
        cases hc
      | cons t rest =>
        have hne2 : fd.tickets ≠ [] := by rw [hte]; simp
        rw [createPayload_ok_closed env a fd eac cids eid hmk hpr hne2] at h
        rw [Prod.ext_iff] at h
        obtain ⟨h1, -⟩ := h
        cases h1

/-- Witness for C4: the missing-key run aborts with the configuration error
and an empty effect trace; a present-key run that fails (empty price string)
fails with a different error. -/
theorem C4_witness :
    createPayload envNoKey "alice" distinctForm "cid" [] "ev1" =
        (.error .missingMasterKey, []) ∧
      PayloadError.nullPriceToString ≠ PayloadError.missingMasterKey :=
  ⟨C4_masterKey_guard.1 envNoKey "alice" distinctForm "cid" [] "ev1" (by decide),
   C4_masterKey_guard.2 envX "alice" (sampleForm [sampleTicket "VIP" (some "") (some 10)])
      "cid" [] "ev1" "master-key" .nullPriceToString cryptoEffects rfl (by decide) (by decide)⟩

/-- C3: every successful `createPayload` run returns an actions array
holding exactly one `FunctionCall` action whose args carry `drop_ids`,
`drop_configs`, `asset_datas`, `change_user_metadata` and an `on_success`
record; its `gas` is the fixed string `"300000000000000"`; its `deposit`
equals the `total` of the cost breakdown; the `on_success.attached_deposit`
equals the `marketListing` component; and `change_user_metadata` is the
serialized funder-metadata map with exactly one entry, keyed by the event
identifier. -/
theorem C3_payload_action_shape (env : JsEnv) (a : String) (fd : FormSchema)
    (eac : String) (cids : List String) (eid : String) (out : PayloadResult)
    (tr : List Effect)
    (h : createPayload env a fd eac cids eid = (.ok out, tr)) :
    ∃ (p : FunctionCallParams) (em : FunderEventMetadata) (cb : CostBreakdown),
      out.actions = [{ type := "FunctionCall", params := p }] ∧
      p.methodName = "create_drop_batch" ∧
      p.gas = "300000000000000" ∧
      p.args.change_user_metadata = [(eid, em)] ∧
      calculateDepositCost env.byteSizeOfTicketsJson env.byteSizeOfEventJson em fd.tickets
        p.args.on_success.args.ticket_information = .ok cb ∧
      p.deposit = cb.total ∧
      p.args.on_success.attached_deposit = cb.marketListing := by
  obtain ⟨hmk, hpr, hne, hout⟩ := createPayload_ok_inv env a fd eac cids eid out tr h
  subst hout
  refine ⟨(payloadActionOf env a fd eac cids eid).params, eventMetadataOf env fd eac eid,
    (costBreakdownIntOf env fd eac eid).render, rfl, rfl, rfl, rfl, ?_, rfl, rfl⟩
  show calculateDepositCost env.byteSizeOfTicketsJson env.byteSizeOfEventJson
      (eventMetadataOf env fd eac eid) fd.tickets (ticketInfoRecordOf env fd.tickets) =
    .ok (costBreakdownIntOf env fd eac eid).render
  unfold calculateDepositCost
  rw [calculateDepositCostInt_ok env.byteSizeOfTicketsJson env.byteSizeOfEventJson
    (eventMetadataOf env fd eac eid) fd.tickets (ticketInfoRecordOf env fd.tickets) hne]
  rfl

/-- Witness for C3 on a concrete successful run. -/
theorem C3_witness :
    ∃ (p : FunctionCallParams) (em : FunderEventMetadata) (cb : CostBreakdown),
      (getOkResult (createPayload envX "alice" distinctForm "cid" ["a1"] "ev1").1).actions =
        [{ type := "FunctionCall", params := p }] ∧
      p.methodName = "create_drop_batch" ∧
      p.gas = "300000000000000" ∧
      p.args.change_user_metadata = [("ev1", em)] ∧
      calculateDepositCost envX.byteSizeOfTicketsJson envX.byteSizeOfEventJson em
        distinctForm.tickets p.args.on_success.args.ticket_information = .ok cb ∧
      p.deposit = cb.total ∧
      p.args.on_success.attached_deposit = cb.marketListing :=
  C3_payload_action_shape envX "alice" distinctForm "cid" ["a1"] "ev1"
    (getOkResult (createPayload envX "alice" distinctForm "cid" ["a1"] "ev1").1)
    (createPayload envX "alice" distinctForm "cid" ["a1"] "ev1").2 (by decide)

/-- C5 counterexample: the ticket names `VIP` and `v ip` differ only by case
and whitespace, both slugify to `vip`, and with the per-ticket `Date.now()`
values landing in the same millisecond the successful run generates the drop
identifier `1-vip` twice — the identifiers are not unique. -/
theorem C5_counterexample :
    (createPayload envX "alice" collidingForm "cid" [] "ev1").1.isOk = true ∧
    ¬ (getOkResult (createPayload envX "alice" collidingForm "cid" [] "ev1").1).dropIds.Nodup :=
  ⟨by decide, by decide⟩

/-- C5 (amended): drop identifiers generated within one payload-build call
are unique provided the slugified lowercase names (spaces removed) are
pairwise distinct, for every clock: a timestamp renders to digits only, so
the first dash of an identifier delimits it and equal identifiers force
equal slugs.  Two ticket names differing only by case or whitespace share a
slug and produce identical identifiers when their `Date.now()` milliseconds
coincide, so slugification does collide for distinct inputs sharing a
slug. -/
theorem C5_dropIds_unique_amended (env : JsEnv) (a : String) (fd : FormSchema)
    (eac : String) (cids : List String) (eid : String) (out : PayloadResult)
    (tr : List Effect)
    (hslugs : (fd.tickets.map (fun t => slugifyName t.name)).Nodup)
    (h : createPayload env a fd eac cids eid = (.ok out, tr)) :
    out.dropIds.Nodup := by
  obtain ⟨-, -, -, hout⟩ := createPayload_ok_inv env a fd eac cids eid out tr h
  subst hout
  exact dropIdsFrom_nodup env fd.tickets 1 hslugs

/-- Witness for C5 (amended) on a run with distinct slugs. -/
theorem C5_witness :
    (getOkResult (createPayload envX "alice" distinctForm "cid" [] "ev1").1).dropIds.Nodup :=
  C5_dropIds_unique_amended envX "alice" distinctForm "cid" [] "ev1"
    (getOkResult (createPayload envX "alice" distinctForm "cid" [] "ev1").1)
    (createPayload envX "alice" distinctForm "cid" [] "ev1").2
    (by decide) (by decide)

/-- C6 counterexample: on the colliding two-ticket run the successful
payload carries only one market listing record (the duplicate drop
identifier overwrote the first assignment), so the number of listing records
does not equal the ticket type count. -/
theorem C6_counterexample :
    (createPayload envX "alice" collidingForm "cid" [] "ev1").1.isOk = true ∧
    collidingForm.tickets.length = 2 ∧
    (getOkResult (createPayload envX "alice" collidingForm "cid" [] "ev1").1).actions.map
        (fun act => act.params.args.on_success.args.ticket_information.length) = [1] :=
  ⟨by decide, by decide, by decide⟩

/-- C6 (amended): on every successful run the number of generated drop
identifiers equals the ticket type count; the number of market listing
records also equals the ticket type count provided the drop identifiers are
pairwise distinct — duplicate identifiers overwrite earlier record entries
and leave fewer records. -/
theorem C6_counts_amended (env : JsEnv) (a : String) (fd : FormSchema)
    (eac : String) (cids : List String) (eid : String) (out : PayloadResult)
    (tr : List Effect)
    (h : createPayload env a fd eac cids eid = (.ok out, tr)) :
    out.dropIds.length = fd.tickets.length ∧
    (out.dropIds.Nodup →
      ∀ act ∈ out.actions,
        act.params.args.on_success.args.ticket_information.length = fd.tickets.length) := by
  obtain ⟨-, -, -, hout⟩ := createPayload_ok_inv env a fd eac cids eid out tr h
  subst hout
  constructor
  · exact dropIdsFrom_length env fd.tickets 1
  · intro hnd act hact
    simp only [List.mem_singleton] at hact
    subst hact
    show (ticketInfoRecordOf env fd.tickets).length = fd.tickets.length
    unfold ticketInfoRecordOf
    rw [foldl_recordInsert_nodup (marketEntriesFrom env 1 fd.tickets) []
      (by simp only [List.nil_append]; rw [marketEntriesFrom_keys]; exact hnd)]
    simp [marketEntriesFrom_length]

/-- Witness for C6 (amended) on the distinct-slug run. -/
theorem C6_witness :
    (getOkResult (createPayload envX "alice" distinctForm "cid" [] "ev1").1).dropIds.length =
        distinctForm.tickets.length ∧
      ((getOkResult (createPayload envX "alice" distinctForm "cid" [] "ev1").1).actions.getD 0
            defaultWalletAction).params.args.on_success.args.ticket_information.length =
        distinctForm.tickets.length :=
  ⟨(C6_counts_amended envX "alice" distinctForm "cid" [] "ev1"
      (getOkResult (createPayload envX "alice" distinctForm "cid" [] "ev1").1)
      (createPayload envX "alice" distinctForm "cid" [] "ev1").2 (by decide)).1,
   (C6_counts_amended envX "alice" distinctForm "cid" [] "ev1"
      (getOkResult (createPayload envX "alice" distinctForm "cid" [] "ev1").1)
      (createPayload envX "alice" distinctForm "cid" [] "ev1").2 (by decide)).2
      (by decide)
      ((getOkResult (createPayload envX "alice" distinctForm "cid" [] "ev1").1).actions.getD 0
        defaultWalletAction)
      (by decide)⟩

/-- C8: `createPayload` consumes the artwork cid array from the front in
ticket order — after a successful run the caller's array has lost its first
`ticketCount` elements and the k-th drop's token metadata carries the k-th
cid (the empty string once the array is exhausted) — and whether the run
succeeds is independent of the cid array, so exhaustion raises nothing. -/
theorem C8_artwork_consumption (env : JsEnv) (a : String) (fd : FormSchema)
    (eac : String) (cids : List String) (eid : String) :
    ((createPayload env a fd eac cids eid).1.isOk =
      (createPayload env a fd eac [] eid).1.isOk) ∧
    (∀ out tr, createPayload env a fd eac cids eid = (.ok out, tr) →
      out.remainingTicketArtworkCids = cids.drop fd.tickets.length ∧
      ∀ act ∈ out.actions, ∀ k, k < fd.tickets.length →
        (act.params.args.drop_configs[k]?).map
            (fun dc => dc.nft_keys_config.token_metadata.artwork) =
          some (some (cids.getD k ""))) := by
  constructor
  · rw [createPayload_fst_isOk, createPayload_fst_isOk]
  · intro out tr h
    obtain ⟨-, -, -, hout⟩ := createPayload_ok_inv env a fd eac cids eid out tr h
    subst hout
    refine ⟨rfl, ?_⟩
    intro act hact k hk
    simp only [List.mem_singleton] at hact
    subst hact
    show ((dropConfigsFrom env eid 1 cids fd.tickets)[k]?).map
        (fun dc => dc.nft_keys_config.token_metadata.artwork) = some (some (cids.getD k ""))
    have ht : fd.tickets[k]? = some fd.tickets[k] := List.getElem?_eq_getElem hk
    rw [dropConfigsFrom_getElem env eid fd.tickets 1 cids k fd.tickets[k] ht]
    rfl

/-- Witness for C8: a two-ticket run given a single cid — the second ticket
receives the empty string and the run still succeeds. -/
theorem C8_witness :
    ((createPayload envX "alice" distinctForm "cid" ["a1"] "ev1").1.isOk =
      (createPayload envX "alice" distinctForm "cid" [] "ev1").1.isOk) ∧
    (getOkResult (createPayload envX "alice" distinctForm "cid" ["a1"]
        "ev1").1).remainingTicketArtworkCids = (["a1"].drop distinctForm.tickets.length) ∧
    (((getOkResult (createPayload envX "alice" distinctForm "cid" ["a1"] "ev1").1).actions.getD 0
          defaultWalletAction).params.args.drop_configs[1]?).map
        (fun dc => dc.nft_keys_config.token_metadata.artwork) =
      some (some (["a1"].getD 1 "")) :=
  ⟨(C8_artwork_consumption envX "alice" distinctForm "cid" ["a1"] "ev1").1,
   ((C8_artwork_consumption envX "alice" distinctForm "cid" ["a1"] "ev1").2
      (getOkResult (createPayload envX "alice" distinctForm "cid" ["a1"] "ev1").1)
      (createPayload envX "alice" distinctForm "cid" ["a1"] "ev1").2 (by decide)).1,
   ((C8_artwork_consumption envX "alice" distinctForm "cid" ["a1"] "ev1").2
      (getOkResult (createPayload envX "alice" distinctForm "cid" ["a1"] "ev1").1)
      (createPayload envX "alice" distinctForm "cid" ["a1"] "ev1").2 (by decide)).2
      ((getOkResult (createPayload envX "alice" distinctForm "cid" ["a1"] "ev1").1).actions.getD 0
        defaultWalletAction)
      (by decide) 1 (by decide)⟩

/-- C10: a ticket whose `priceNear` is absent or `"0"` produces a market
listing record with price `"0"` and `max_tickets` equal to its `maxSupply`
(zero when absent); the deposit estimator counts that listing as free, its
`max_tickets` contributing in full to the free-key sum that the doubled
storage allowance multiplies. -/
theorem C10_free_ticket_listing (env : JsEnv) (a : String) (fd : FormSchema)
    (eac : String) (cids : List String) (eid : String) (out : PayloadResult)
    (tr : List Effect) (k : Nat) (t : TicketInfoFormMetadata)
    (h : createPayload env a fd eac cids eid = (.ok out, tr))
    (hnd : out.dropIds.Nodup)
    (hk : fd.tickets[k]? = some t)
    (hfree : t.priceNear = none ∨ t.priceNear = some "0") :
    ∀ act ∈ out.actions,
      ∃ info : MarketKeyInfo,
        (act.params.args.on_success.args.ticket_information.map Prod.snd)[k]? = some info ∧
        info.price = "0" ∧
        info.max_tickets = t.maxSupply.getD 0 ∧
        numFreeKeysLoop (act.params.args.on_success.args.ticket_information.map Prod.snd) =
          t.maxSupply.getD 0 +
            numFreeKeysLoop
              ((act.params.args.on_success.args.ticket_information.map Prod.snd).eraseIdx k) := by
  obtain ⟨-, -, -, hout⟩ := createPayload_ok_inv env a fd eac cids eid out tr h
  subst hout
  intro act hact
  simp only [List.mem_singleton] at hact
  subst hact
  have hfp : forcedPrice t = "0" := by
    rcases hfree with h0 | h0 <;> simp only [forcedPrice, h0] <;> decide
  have hti : (payloadActionOf env a fd eac cids
      eid).params.args.on_success.args.ticket_information =
      marketEntriesFrom env 1 fd.tickets := by
    show ticketInfoRecordOf env fd.tickets = marketEntriesFrom env 1 fd.tickets
    unfold ticketInfoRecordOf
    rw [foldl_recordInsert_nodup (marketEntriesFrom env 1 fd.tickets) []
      (by simp only [List.nil_append]; rw [marketEntriesFrom_keys]; exact hnd)]
    simp
  rw [hti]
  have hent := marketEntriesFrom_getElem env fd.tickets 1 k t hk
  have hval : ((marketEntriesFrom env 1 fd.tickets).map Prod.snd)[k]? =
      some (marketEntryFor t (forcedPrice t)) := by
    rw [List.getElem?_map, hent]
    rfl
  rw [hfp] at hval
  refine ⟨marketEntryFor t "0", hval, rfl, rfl, ?_⟩
  have := numFreeKeysLoop_getElem ((marketEntriesFrom env 1 fd.tickets).map Prod.snd) k
    (marketEntryFor t "0") hval
  rw [this]
  simp [marketEntryFor]

/-- Witness for C10: the one-ticket free run (`priceNear` absent,
`maxSupply = 100`). -/
theorem C10_witness :
    ∃ info : MarketKeyInfo,
      (((getOkResult (createPayload envX "alice" freeTicketForm "cid" [] "ev1").1).actions.getD 0
            defaultWalletAction).params.args.on_success.args.ticket_information.map
          Prod.snd)[0]? = some info ∧
      info.price = "0" ∧
      info.max_tickets = (sampleTicket "Gala" none (some 100)).maxSupply.getD 0 ∧
      numFreeKeysLoop
          (((getOkResult (createPayload envX "alice" freeTicketForm "cid" []
                "ev1").1).actions.getD 0
              defaultWalletAction).params.args.on_success.args.ticket_information.map
            Prod.snd) =
        (sampleTicket "Gala" none (some 100)).maxSupply.getD 0 +
          numFreeKeysLoop
            ((((getOkResult (createPayload envX "alice" freeTicketForm "cid" []
                  "ev1").1).actions.getD 0
                defaultWalletAction).params.args.on_success.args.ticket_information.map
              Prod.snd).eraseIdx 0) :=
  C10_free_ticket_listing envX "alice" freeTicketForm "cid" [] "ev1"
    (getOkResult (createPayload envX "alice" freeTicketForm "cid" [] "ev1").1)
    (createPayload envX "alice" freeTicketForm "cid" [] "ev1").2 0
    (sampleTicket "Gala" none (some 100)) (by decide) (by decide) (by decide) (Or.inl rfl)
    ((getOkResult (createPayload envX "alice" freeTicketForm "cid" [] "ev1").1).actions.getD 0
      defaultWalletAction)
    (by decide)

end Ticketing
